import Mathlib

/-
Shallow embedding of the simulation-and-validation engine of the AI-investor
stock game backend.  The repository ships two near-duplicate Express servers:
an "expert" variant (src/unnamed/part_000) and a "casual" variant
(src/main.js).  JavaScript numbers are modelled as rationals, the global
Math.random stream as a function from draw indices to rationals in [0,1),
and untrusted JSON values as an inductive JValue type.
-/

/-- JSON values, the domain of the schema validators (output of JSON.parse). -/
inductive JValue where
  | null
  | bool (b : Bool)
  | num (q : ℚ)
  | str (s : String)
  | arr (elems : List JValue)
  | obj (fields : List (String × JValue))

/-- JavaScript truthiness for JSON values (no NaN or undefined in JSON). -/
def jsTruthy : JValue → Bool
  | .null => false
  | .bool b => b
  | .num q => !(q == 0)
  | .str s => !(s == "")
  | .arr _ => true
  | .obj _ => true

/-- Property lookup `v[k]`.  Objects produced by JSON.parse keep the last
occurrence of a duplicated key; lookup on non-objects yields undefined. -/
def jGet : JValue → String → Option JValue
  | .obj fs, k => ((fs.filter (fun p => p.1 == k)).getLast?).map (fun p => p.2)
  | _, _ => none

/-- Truthiness of the field `v[k]`; an absent field (undefined) is falsy. -/
def truthyField (v : JValue) (k : String) : Bool :=
  match jGet v k with
  | some w => jsTruthy w
  | none => false

/-- JavaScript check `typeof v[k] === "string"`. -/
def isStringField (v : JValue) (k : String) : Bool :=
  match jGet v k with
  | some (.str _) => true
  | _ => false

/-- JavaScript check `typeof v[k] === "number"`, returning the number. -/
def numField (v : JValue) (k : String) : Option ℚ :=
  match jGet v k with
  | some (.num q) => some q
  | _ => none

/-- JavaScript check `typeof v[k] === "number"`. -/
def isNumberField (v : JValue) (k : String) : Bool :=
  (numField v k).isSome

/-- Is the value the JSON literal null (property access on it throws). -/
def isNullJ : JValue → Bool
  | .null => true
  | _ => false

/-- JavaScript `Array.isArray`. -/
def isArrayJ : JValue → Bool
  | .arr _ => true
  | _ => false

/-- JavaScript `typeof v === "number"`. -/
def isNumJ : JValue → Bool
  | .num _ => true
  | _ => false

/-- JavaScript `typeof v === "object"` (true for objects, arrays and null). -/
def typeofIsObject : JValue → Bool
  | .obj _ => true
  | .arr _ => true
  | .null => true
  | _ => false

/-- Direction of an economic event. -/
inductive Direction where
  | positive
  | negative
deriving DecidableEq, Repr

/-- Direction of a per-stock news prediction. -/
inductive NewsDir where
  | rise
  | fall
deriving DecidableEq, Repr

def dirStr : Direction → String
  | .positive => "positive"
  | .negative => "negative"

/-- Capitalisation `direction.charAt(0).toUpperCase() + direction.slice(1)`. -/
def dirCap : Direction → String
  | .positive => "Positive"
  | .negative => "Negative"

def newsDirStr : NewsDir → String
  | .rise => "rise"
  | .fall => "fall"

/-- A stock as used by the simulation endpoints (the fields the code reads). -/
structure Stock where
  ticker : String
  name : String
  price : ℚ
  volatility : ℚ
deriving DecidableEq, Repr

/-- One stock's simulated state on one simulated day.  The expert fallback
emits previousDayPrice, priceChange and volatility; the casual fallback omits
those three fields, hence the Option type. -/
structure SimTick where
  ticker : String
  day : ℤ
  price : ℚ
  previousDayPrice : Option ℚ
  priceChange : Option ℚ
  volatility : Option ℚ
  headline : String
  description : String
deriving DecidableEq, Repr

/-- A per-stock news prediction supplied in simulateDays requests. -/
structure Prediction where
  ticker : String
  day : ℤ
  direction : NewsDir
deriving DecidableEq, Repr

/-- An active economic effect supplied back by the caller; startDay may be
absent in caller-provided JSON. -/
structure EconEffect where
  sector : String
  headline : String
  daysLeft : ℤ
  startDay : Option ℤ
  direction : Direction
deriving DecidableEq, Repr

/-- A new economic event returned by simulateDays. -/
structure EconEvent where
  sector : String
  headline : String
  daysLeft : ℤ
  startDay : ℤ
  direction : Direction
deriving DecidableEq, Repr

/-- The predicted-economic-event singleton (process-lifetime state). -/
structure PredictedEvent where
  sector : String
  headline : String
  day : ℤ
  daysLeft : ℤ
  direction : Direction
deriving DecidableEq, Repr

/- ### Expert fallback simulator (src/unnamed/part_000, lines 212-243)

Each day consumes exactly two random draws: on an earnings day the
performance draw then the volatility draw, otherwise the volatility draw
then the price-change draw.  Day i of a stock uses draws 2*i and 2*i+1 of
the stream handed to that stock. -/

/-- One day of the expert fallback: day index i, chained previous price. -/
def stepTick (rng : ℕ → ℚ) (s : Stock) (c : ℤ) (i : ℕ) (prev : ℚ) : SimTick :=
  let day : ℤ := c + i + 1
  let isEarningsDay : Bool := day % 10 == 0
  let quarter : String := if isEarningsDay then "Q" ++ toString (day.fdiv 10) else ""
  let positive : Bool := rng (2 * i) > 0.5
  let dailyVolatility : ℚ :=
    if isEarningsDay then s.volatility * (0.5 + rng (2 * i + 1))
    else s.volatility * (0.5 + rng (2 * i))
  let priceChange : ℚ :=
    if isEarningsDay then (if positive then 0.2 else -0.2)
    else (rng (2 * i + 1) - 0.5) * (dailyVolatility / 100)
  let price : ℚ := max 0.1 (prev * (1 + priceChange))
  { ticker := s.ticker
    day := day
    price := price
    previousDayPrice := some prev
    priceChange := some ((price - prev) / prev * 100)
    volatility := some dailyVolatility
    headline := if isEarningsDay then quarter ++ " Earnings Call" else "Update for " ++ s.name
    description :=
      if isEarningsDay then
        (if positive then s.name ++ " reports strong revenue growth"
         else s.name ++ " misses earnings expectations")
      else "Price changed on day " ++ toString day }

/-- The expert fallback day loop for one stock: remaining days, day index i,
chained prevPrice. -/
def simStockGo (rng : ℕ → ℚ) (s : Stock) (c : ℤ) : ℕ → ℕ → ℚ → List SimTick
  | _, 0, _ => []
  | i, rem + 1, prev =>
    stepTick rng s c i prev :: simStockGo rng s c (i + 1) rem (stepTick rng s c i prev).price

/-- The expert fallback for one stock, starting from its current price. -/
def simStockExpert (rng : ℕ → ℚ) (s : Stock) (c : ℤ) (days : ℕ) : List SimTick :=
  simStockGo rng s c 0 days s.price

/-- The expert fallback over the stock list; stock j starts at draw
2*days*j of the global stream (each stock consumes exactly 2*days draws). -/
def expertFallbackGo (rng : ℕ → ℚ) (c : ℤ) (days : ℕ) : List Stock → ℕ → List SimTick
  | [], _ => []
  | s :: rest, j =>
    simStockExpert (fun n => rng (2 * days * j + n)) s c days ++
      expertFallbackGo rng c days rest (j + 1)

/-- Fallback simulation of the expert /simulateDays endpoint. -/
def expertFallback (rng : ℕ → ℚ) (stocks : List Stock) (c : ℤ) (days : ℕ) : List SimTick :=
  expertFallbackGo rng c days stocks 0

/- ### Casual fallback simulator (src/main.js, lines 192-216)

One random draw per day (the performance draw on earnings days, the
price-change draw otherwise).  Each day's price is computed from the stock's
input price - there is no prevPrice chaining - and the emitted tick has no
previousDayPrice, priceChange or volatility field. -/

/-- One day of the casual fallback. -/
def casualStepTick (rng : ℕ → ℚ) (s : Stock) (c : ℤ) (i : ℕ) : SimTick :=
  let day : ℤ := c + i + 1
  let isEarningsDay : Bool := day % 10 == 0
  let quarter : String := if isEarningsDay then "Q" ++ toString (day.fdiv 10) else ""
  let positive : Bool := rng i > 0.5
  let priceChange : ℚ :=
    if isEarningsDay then (if positive then 0.2 else -0.2)
    else (rng i - 0.5) * 0.2
  let price : ℚ := s.price * (1 + priceChange)
  { ticker := s.ticker
    day := day
    price := price
    previousDayPrice := none
    priceChange := none
    volatility := none
    headline := if isEarningsDay then quarter ++ " Earnings Call" else "Update for " ++ s.name
    description :=
      if isEarningsDay then
        (if positive then s.name ++ " reports strong revenue growth"
         else s.name ++ " misses earnings expectations")
      else "Price changed on day " ++ toString day }

/-- The casual fallback day loop for one stock. -/
def casualStockGo (rng : ℕ → ℚ) (s : Stock) (c : ℤ) : ℕ → ℕ → List SimTick
  | _, 0 => []
  | i, rem + 1 => casualStepTick rng s c i :: casualStockGo rng s c (i + 1) rem

/-- The casual fallback over the stock list; stock j starts at draw days*j. -/
def casualFallbackGo (rng : ℕ → ℚ) (c : ℤ) (days : ℕ) : List Stock → ℕ → List SimTick
  | [], _ => []
  | s :: rest, j =>
    casualStockGo (fun n => rng (days * j + n)) s c 0 days ++
      casualFallbackGo rng c days rest (j + 1)

/-- Fallback simulation of the casual /simulateDays endpoint. -/
def casualFallback (rng : ℕ → ℚ) (stocks : List Stock) (c : ℤ) (days : ℕ) : List SimTick :=
  casualFallbackGo rng c days stocks 0

/- ### Schema validators (src/unnamed/part_000, lines 77-91 and 196-210) -/

/-- The element check of the /stocks validator (expert variant):
`stock && typeof stock.ticker === "string" && ...`. -/
def stockValidE (v : JValue) : Bool :=
  jsTruthy v &&
  isStringField v "ticker" &&
  isStringField v "name" &&
  isNumberField v "price" &&
  isNumberField v "previousDayPrice" &&
  isNumberField v "priceChange" &&
  isNumberField v "volatility" &&
  isStringField v "sector" &&
  isStringField v "tidbit"

/-- The /stocks validator: must be an array, malformed elements are dropped,
the whole validation fails when nothing survives. -/
def validateStocksE : JValue → Except String (List JValue)
  | .arr xs =>
    let good := xs.filter stockValidE
    if good.isEmpty then .error "No valid stocks returned" else .ok good
  | _ => .error "Response is not an array"

/-- The element check of the /simulateDays validator:
`s.ticker && typeof s.day === "number" && s.day >= currentDay + 1 && ...`.
Note the day only has to be a number in range, not an integer, and the
price floor here is 0, not 0.1. -/
def tickValid (c : ℤ) (days : ℕ) (v : JValue) : Bool :=
  truthyField v "ticker" &&
  (match numField v "day" with
   | some d => decide (((c + 1 : ℤ) : ℚ) ≤ d) && decide (d ≤ ((c + (days : ℤ) : ℤ) : ℚ))
   | none => false) &&
  (match numField v "price" with
   | some p => decide ((0 : ℚ) ≤ p)
   | none => false) &&
  isStringField v "headline" &&
  isStringField v "description"

/-- The /simulateDays tick validator.  Reading `s.ticker` on a null element
throws a TypeError inside the filter callback, which the surrounding catch
turns into a whole-validation failure. -/
def validateTicks (c : ℤ) (days : ℕ) : JValue → Except String (List JValue)
  | .arr xs =>
    if xs.any isNullJ then .error "TypeError: cannot read properties of null"
    else
      let good := xs.filter (tickValid c days)
      if good.isEmpty then .error "No valid simulation data" else .ok good
  | _ => .error "Response is not an array"

/- ### Economic event scheduling (src/unnamed/part_000, lines 116-149) -/

/-- The fixed sector enumeration. -/
def sectors : List String :=
  ["Technology", "Healthcare", "Finance", "Energy", "Consumer Goods", "Utilities"]

/-- `sectors[Math.floor(q * 6)]`; an out-of-range index yields undefined. -/
def sectorAt (q : ℚ) : String :=
  let i : ℤ := ⌊q * 6⌋
  if i < 0 then "undefined" else sectors.getD i.toNat "undefined"

/-- JavaScript `e.startDay || currentDay`: a missing or zero startDay falls
back to currentDay. -/
def effectStartDay (c : ℤ) (e : EconEffect) : ℤ :=
  match e.startDay with
  | some d => if d = 0 then c else d
  | none => c

/-- `activeEconEffects.length > 0 ? Math.max(...) : 0`. -/
def lastEconEventDay (effects : List EconEffect) (c : ℤ) : ℤ :=
  match effects.map (effectStartDay c) with
  | [] => 0
  | x :: xs => xs.foldl max x

/-- A freshly generated economic event from three draws: sector, duration,
direction; it starts on the next day. -/
def genEconEvent (c : ℤ) (r1 r2 r3 : ℚ) : EconEvent :=
  let sector := sectorAt r1
  let daysLast : ℤ := 3 + ⌊r2 * 2⌋
  let direction : Direction := if r3 > 0.5 then .positive else .negative
  { sector := sector
    headline := dirCap direction ++ " Market Shift in " ++ sector
    daysLeft := daysLast
    startDay := c + 1
    direction := direction }

/-- The economic-event step of a /simulateDays cache miss: decide whether to
generate, promote a pending predicted event whose trigger day falls in
(currentDay, currentDay+days], and otherwise generate a fresh event.
Returns the newEconEvents list and the updated singleton.  The generation
gate consumes draw 0 only when daysSinceLastEvent >= 6 (JS short-circuit). -/
def econStep (predicted : Option PredictedEvent) (effects : List EconEffect)
    (c : ℤ) (days : ℕ) (rng : ℕ → ℚ) : List EconEvent × Option PredictedEvent :=
  let dsle : ℤ := c - lastEconEventDay effects c
  let gateConsumed : Bool := decide (6 ≤ dsle)
  let genEvent : Bool :=
    gateConsumed && decide (rng 0 < (if 10 ≤ dsle then (1 : ℚ) else 0.5))
  let k : ℕ := if gateConsumed then 1 else 0
  let promoted : Option EconEvent :=
    match predicted with
    | some pe =>
      if c + 1 ≤ pe.day ∧ pe.day ≤ c + (days : ℤ) then
        some { sector := pe.sector, headline := pe.headline, daysLeft := pe.daysLeft,
               startDay := pe.day, direction := pe.direction }
      else none
    | none => none
  let newEvents : List EconEvent :=
    match promoted with
    | some ev => [ev]
    | none => []
  let predicted' : Option PredictedEvent :=
    match promoted with
    | some _ => none
    | none => predicted
  let newEvents : List EconEvent :=
    if genEvent && newEvents.isEmpty then
      [genEconEvent c (rng k) (rng (k + 1)) (rng (k + 2))]
    else newEvents
  (newEvents, predicted')

/- ### /predictEconEvent (src/unnamed/part_000, lines 315-362) -/

/-- The /predictEconEvent handler: clear an expired prediction, return a
still-pending one unchanged, otherwise generate, store and return a fresh
prediction.  Draws: daysUntilNext, sector, duration, direction in order.
Returns the response and the updated singleton. -/
def predictEconEvent (predicted : Option PredictedEvent) (effects : List EconEffect)
    (c : ℤ) (rng : ℕ → ℚ) : PredictedEvent × Option PredictedEvent :=
  let cleared : Option PredictedEvent :=
    match predicted with
    | some pe => if c ≥ pe.day then none else some pe
    | none => none
  match cleared with
  | some pe => (pe, some pe)
  | none =>
    let dsle : ℤ := c - lastEconEventDay effects c
    let dun0 : ℤ := 6 + ⌊rng 0 * 5⌋
    let dun : ℤ := if 6 ≤ dsle then min dun0 (10 - dsle) else dun0
    let sector := sectorAt (rng 1)
    let daysLast : ℤ := 3 + ⌊rng 2 * 2⌋
    let direction : Direction := if rng 3 > 0.5 then .positive else .negative
    let p : PredictedEvent :=
      { sector := sector
        headline := dirCap direction ++ " Market Shift in " ++ sector
        day := c + dun
        daysLeft := daysLast
        direction := direction }
    (p, some p)

/- ### /predictNews (src/unnamed/part_000 lines 257-312, src/main.js 231-293) -/

/-- The expert candidate check:
`!prediction.ticker || !Number.isInteger(prediction.day) ||
 !["rise","fall"].includes(prediction.direction)` - no ticker-membership or
day-range check. -/
def validNewsCandidateE (v : JValue) : Bool :=
  truthyField v "ticker" &&
  (match numField v "day" with
   | some d => d.den == 1
   | none => false) &&
  (match jGet v "direction" with
   | some (.str d) => d == "rise" || d == "fall"
   | _ => false)

/-- The casual candidate check: the expert checks plus ticker membership in
the supplied stock list and day within [currentDay+1, currentDay+7]. -/
def validNewsCandidateC (stocks : List Stock) (c : ℤ) (v : JValue) : Bool :=
  validNewsCandidateE v &&
  (match jGet v "ticker" with
   | some (.str t) => stocks.any (fun s => s.ticker == t)
   | _ => false) &&
  (match numField v "day" with
   | some d => decide (((c + 1 : ℤ) : ℚ) ≤ d) && decide (d ≤ ((c + 7 : ℤ) : ℚ))
   | none => false)

/-- The random fallback prediction: a uniformly random stock, a day in
(currentDay, currentDay+7], a random direction.  Indexing an empty stock
list throws (error). -/
def newsFallback (stocks : List Stock) (c : ℤ) (rng : ℕ → ℚ) : Except Unit JValue :=
  let i : ℤ := ⌊rng 0 * (stocks.length : ℚ)⌋
  if h : 0 ≤ i ∧ i.toNat < stocks.length then
    let s := stocks.get ⟨i.toNat, h.2⟩
    .ok (.obj [("ticker", .str s.ticker),
               ("day", .num ((c + ⌊rng 1 * 7⌋ + 1 : ℤ) : ℚ)),
               ("direction", .str (if rng 2 > 0.5 then "rise" else "fall"))])
  else .error ()

/-- The expert /predictNews compute: accept the LLM candidate when it passes
the expert check, otherwise fall back. -/
def predictNewsE (stocks : List Stock) (c : ℤ) (cand : Option JValue)
    (rng : ℕ → ℚ) : Except Unit JValue :=
  match cand with
  | some v => if validNewsCandidateE v then .ok v else newsFallback stocks c rng
  | none => newsFallback stocks c rng

/-- The casual /predictNews compute. -/
def predictNewsC (stocks : List Stock) (c : ℤ) (cand : Option JValue)
    (rng : ℕ → ℚ) : Except Unit JValue :=
  match cand with
  | some v => if validNewsCandidateC stocks c v then .ok v else newsFallback stocks c rng
  | none => newsFallback stocks c rng

/- ### /analyzePerformance (src/unnamed/part_000 lines 365-371) -/

/-- The log request field: either a pre-parsed JSON value or a string
carrying the result JSON.parse would produce on it (none = malformed). -/
inductive LogInput where
  | jsval (v : JValue)
  | jstring (parsed : Option JValue)

/-- Validation outcome of /analyzePerformance. -/
inductive APOutcome where
  | invalidInput
  | accepted
deriving DecidableEq, Repr

/-- The 400 validation of /analyzePerformance after log normalisation. -/
def apValidate (logv : JValue) (portfolio budget : JValue) : APOutcome :=
  if isArrayJ logv && typeofIsObject portfolio && isNumJ budget then .accepted
  else .invalidInput

/-- The /analyzePerformance entry: `typeof log === "string" ? JSON.parse(log)
: log` runs before the try/catch, so a malformed string throws out of the
handler (error) instead of reaching the 400 check. -/
def analyzePerformanceHandler (log : LogInput) (portfolio budget : JValue) :
    Except Unit APOutcome :=
  match log with
  | .jstring none => .error ()
  | .jstring (some v) => .ok (apValidate v portfolio budget)
  | .jsval v => .ok (apValidate v portfolio budget)

/- ### Response cache and the /simulateDays handler (src/unnamed/part_000,
lines 22-35 and 106-254) -/

/-- The simulated ticks of a response: either validated LLM output or the
fallback simulation. -/
inductive SimData where
  | fromLLM (ticks : List JValue)
  | fromFallback (ticks : List SimTick)

/-- The /simulateDays response body. -/
structure SimResult where
  simulated : SimData
  newEconEvents : List EconEvent

/-- One response-cache entry. -/
structure CacheEntry where
  data : SimResult
  timestamp : ℤ

/-- The mutable server state: the response cache and the predicted-event
singleton. -/
structure ServerState where
  cache : List (String × CacheEntry)
  predicted : Option PredictedEvent

/-- Five minutes in milliseconds. -/
def CACHE_TTL : ℤ := 5 * 60 * 1000

/-- `responseCache.get(key)`. -/
def cacheLookup (key : String) (cache : List (String × CacheEntry)) : Option CacheEntry :=
  (cache.find? (fun p => p.1 == key)).map (fun p => p.2)

/-- getOrCacheResponse: return a fresh cached value without running the
compute function; otherwise run it and store its result with the current
timestamp. -/
def getOrCache (now : ℤ) (key : String) (st : ServerState)
    (fn : ServerState → SimResult × ServerState) : SimResult × ServerState :=
  match cacheLookup key st.cache with
  | some e =>
    if now - e.timestamp < CACHE_TTL then (e.data, st)
    else
      let r := fn st
      (r.1, { r.2 with cache := (key, ⟨r.1, now⟩) :: r.2.cache.filter (fun p => !(p.1 == key)) })
  | none =>
    let r := fn st
    (r.1, { r.2 with cache := (key, ⟨r.1, now⟩) :: r.2.cache.filter (fun p => !(p.1 == key)) })

/-- JSON.stringify of one prediction. -/
def stringifyPrediction (p : Prediction) : String :=
  "\x7b\"ticker\":\"" ++ p.ticker ++ "\",\"day\":" ++ toString p.day ++
    ",\"direction\":\"" ++ newsDirStr p.direction ++ "\"\x7d"

/-- JSON.stringify of one active effect (an absent startDay is omitted). -/
def stringifyEffect (e : EconEffect) : String :=
  "\x7b\"sector\":\"" ++ e.sector ++ "\",\"headline\":\"" ++ e.headline ++
    "\",\"daysLeft\":" ++ toString e.daysLeft ++
    (match e.startDay with
     | some d => ",\"startDay\":" ++ toString d
     | none => "") ++
    ",\"direction\":\"" ++ dirStr e.direction ++ "\"\x7d"

/-- JSON.stringify of a list. -/
def stringifyList {α : Type} (f : α → String) (l : List α) : String :=
  "[" ++ String.intercalate "," (l.map f) ++ "]"

/-- The /simulateDays cache key:
`simulate_<currentDay>_<days>_<JSON.stringify of predictions and effects>`. -/
def simCacheKey (c : ℤ) (days : ℕ) (preds : List Prediction)
    (effects : List EconEffect) : String :=
  "simulate_" ++ toString c ++ "_" ++ toString days ++ "_" ++
    "\x7b\"predictions\":" ++ stringifyList stringifyPrediction preds ++
    ",\"activeEconEffects\":" ++ stringifyList stringifyEffect effects ++ "\x7d"

/-- The cache-miss compute of /simulateDays: run the econ-event step (which
mutates the predicted singleton), then validate the LLM candidate ticks,
falling back to the local simulator.  The fallback uses the draws after the
at most four consumed by the econ step. -/
def simulateCompute (stocks : List Stock) (days : ℕ) (c : ℤ)
    (effects : List EconEffect) (llm : Option JValue) (rng : ℕ → ℚ)
    (st : ServerState) : SimResult × ServerState :=
  let step := econStep st.predicted effects c days rng
  let sim : SimData :=
    match llm with
    | some v =>
      match validateTicks c days v with
      | .ok good => .fromLLM good
      | .error _ => .fromFallback (expertFallback (fun n => rng (4 + n)) stocks c days)
    | none => .fromFallback (expertFallback (fun n => rng (4 + n)) stocks c days)
  ({ simulated := sim, newEconEvents := step.1 }, { st with predicted := step.2 })

/-- The expert /simulateDays handler around the response cache. -/
def simulateDaysHandler (st : ServerState) (now : ℤ) (stocks : List Stock)
    (days : ℕ) (preds : List Prediction) (c : ℤ) (effects : List EconEffect)
    (llm : Option JValue) (rng : ℕ → ℚ) : SimResult × ServerState :=
  getOrCache now (simCacheKey c days preds effects) st
    (simulateCompute stocks days c effects llm rng)

/- ### Lemmas about the expert fallback (price chain and price floor) -/

theorem stepTick_ticker (rng : ℕ → ℚ) (s : Stock) (c : ℤ) (i : ℕ) (prev : ℚ) :
    (stepTick rng s c i prev).ticker = s.ticker := rfl

theorem stepTick_prevDayPrice (rng : ℕ → ℚ) (s : Stock) (c : ℤ) (i : ℕ) (prev : ℚ) :
    (stepTick rng s c i prev).previousDayPrice = some prev := rfl

theorem stepTick_price_floor (rng : ℕ → ℚ) (s : Stock) (c : ℤ) (i : ℕ) (prev : ℚ) :
    (0.1 : ℚ) ≤ (stepTick rng s c i prev).price := by
  show (0.1 : ℚ) ≤ max 0.1 _
  exact le_max_left _ _

theorem simStockGo_length (rng : ℕ → ℚ) (s : Stock) (c : ℤ) :
    ∀ (rem i : ℕ) (prev : ℚ), (simStockGo rng s c i rem prev).length = rem := by
  intro rem
  induction rem with
  | zero => intro i prev; rfl
  | succ n ih => intro i prev; simp [simStockGo, ih]

theorem simStockGo_ticker (rng : ℕ → ℚ) (s : Stock) (c : ℤ) :
    ∀ (rem i : ℕ) (prev : ℚ) (t : SimTick),
      t ∈ simStockGo rng s c i rem prev → t.ticker = s.ticker := by
  intro rem
  induction rem with
  | zero => intro i prev t ht; simp [simStockGo] at ht
  | succ n ih =>
    intro i prev t ht
    simp only [simStockGo, List.mem_cons] at ht
    rcases ht with h | h
    · rw [h]; rfl
    · exact ih _ _ _ h

theorem simStockGo_floor (rng : ℕ → ℚ) (s : Stock) (c : ℤ) :
    ∀ (rem i : ℕ) (prev : ℚ) (t : SimTick),
      t ∈ simStockGo rng s c i rem prev → (0.1 : ℚ) ≤ t.price := by
  intro rem
  induction rem with
  | zero => intro i prev t ht; simp [simStockGo] at ht
  | succ n ih =>
    intro i prev t ht
    simp only [simStockGo, List.mem_cons] at ht
    rcases ht with h | h
    · rw [h]; exact stepTick_price_floor rng s c i prev
    · exact ih _ _ _ h

theorem simStockGo_headPrev (rng : ℕ → ℚ) (s : Stock) (c : ℤ) :
    ∀ (rem i : ℕ) (prev : ℚ) (t : SimTick),
      (simStockGo rng s c i rem prev)[0]? = some t → t.previousDayPrice = some prev := by
  intro rem
  cases rem with
  | zero => intro i prev t ht; simp [simStockGo] at ht
  | succ n =>
    intro i prev t ht
    simp only [simStockGo, List.getElem?_cons_zero, Option.some.injEq] at ht
    rw [← ht]
    rfl

theorem simStockGo_chain (rng : ℕ → ℚ) (s : Stock) (c : ℤ) :
    ∀ (rem i : ℕ) (prev : ℚ) (j : ℕ) (t t' : SimTick),
      (simStockGo rng s c i rem prev)[j]? = some t →
      (simStockGo rng s c i rem prev)[j + 1]? = some t' →
      t'.previousDayPrice = some t.price := by
  intro rem
  induction rem with
  | zero => intro i prev j t t' ht; simp [simStockGo] at ht
  | succ n ih =>
    intro i prev j t t' ht ht'
    cases j with
    | zero =>
      simp only [simStockGo, List.getElem?_cons_zero, Option.some.injEq] at ht
      simp only [simStockGo, List.getElem?_cons_succ] at ht'
      have := simStockGo_headPrev rng s c n (i + 1) (stepTick rng s c i prev).price t' ht'
      rw [this, ht]
    | succ k =>
      simp only [simStockGo, List.getElem?_cons_succ] at ht ht'
      exact ih (i + 1) _ k t t' ht ht'

theorem simStockGo_filter_self (rng : ℕ → ℚ) (s : Stock) (c : ℤ) (rem i : ℕ) (prev : ℚ) :
    (simStockGo rng s c i rem prev).filter (fun t => t.ticker == s.ticker) =
      simStockGo rng s c i rem prev := by
  rw [List.filter_eq_self]
  intro t ht
  simp [simStockGo_ticker rng s c rem i prev t ht]

theorem simStockGo_filter_ne (rng : ℕ → ℚ) (s : Stock) (c : ℤ) (rem i : ℕ) (prev : ℚ)
    (tk : String) (h : s.ticker ≠ tk) :
    (simStockGo rng s c i rem prev).filter (fun t => t.ticker == tk) = [] := by
  rw [List.filter_eq_nil]
  intro t ht
  rw [simStockGo_ticker rng s c rem i prev t ht]
  simp [h]

theorem expertFallbackGo_filter_ne (rng : ℕ → ℚ) (c : ℤ) (days : ℕ) (tk : String) :
    ∀ (l : List Stock) (j : ℕ), (∀ s' ∈ l, s'.ticker ≠ tk) →
      (expertFallbackGo rng c days l j).filter (fun t => t.ticker == tk) = [] := by
  intro l
  induction l with
  | nil => intro j _; rfl
  | cons x rest ih =>
    intro j hl
    simp only [expertFallbackGo, List.filter_append, simStockExpert]
    rw [simStockGo_filter_ne _ _ _ _ _ _ _ (hl x (List.mem_cons_self x rest)),
      ih (j + 1) (fun s' hs' => hl s' (List.mem_cons_of_mem x hs'))]
    rfl

theorem expertFallbackGo_filter_eq (rng : ℕ → ℚ) (c : ℤ) (days : ℕ) (s : Stock) :
    ∀ (l : List Stock) (j : ℕ), s ∈ l → (l.map Stock.ticker).Nodup →
      ∃ rng2 : ℕ → ℚ,
        (expertFallbackGo rng c days l j).filter (fun t => t.ticker == s.ticker) =
          simStockExpert rng2 s c days := by
  intro l
  induction l with
  | nil => intro j hs; exact absurd hs (List.not_mem_nil s)
  | cons x rest ih =>
    intro j hs hnd
    simp only [List.map_cons, List.nodup_cons] at hnd
    rcases List.mem_cons.mp hs with rfl | hmem
    · refine ⟨fun n => rng (2 * days * j + n), ?_⟩
      simp only [expertFallbackGo, List.filter_append]
      rw [expertFallbackGo_filter_ne rng c days s.ticker rest (j + 1) ?_]
      · simp only [List.append_nil, simStockExpert]
        exact simStockGo_filter_self _ s c days 0 s.price
      · intro s' hs' h
        exact hnd.1 (h ▸ List.mem_map_of_mem Stock.ticker hs')
    · have hxne : x.ticker ≠ s.ticker := by
        intro h
        exact hnd.1 (h ▸ List.mem_map_of_mem Stock.ticker hmem)
      obtain ⟨rng2, hr⟩ := ih (j + 1) hmem hnd.2
      refine ⟨rng2, ?_⟩
      simp only [expertFallbackGo, List.filter_append]
      rw [hr]
      have hx : (simStockExpert (fun n => rng (2 * days * j + n)) x c days).filter
          (fun t => t.ticker == s.ticker) = [] :=
        simStockGo_filter_ne _ x c days 0 x.price s.ticker hxne
      rw [hx]
      rfl

/-- C1 (amended to the expert variant): in the expert fallback simulation,
for every stock list with pairwise distinct tickers, every positive day
count and every stock of the list, the per-ticker tick sequence has one tick
per day, its first tick's previousDayPrice is the stock's input price, and
the tick for day N+1 has previousDayPrice equal to the price of the tick for
day N: prices chain across the multi-day sequence. -/
theorem C1_expert_price_chain (rng : ℕ → ℚ) (stocks : List Stock) (c : ℤ) (days : ℕ)
    (s : Stock) (hs : s ∈ stocks) (hnd : (stocks.map Stock.ticker).Nodup)
    (hdays : 0 < days) :
    ((expertFallback rng stocks c days).filter (fun t => t.ticker == s.ticker)).length = days ∧
    (∀ t, ((expertFallback rng stocks c days).filter (fun t => t.ticker == s.ticker))[0]? = some t →
      t.previousDayPrice = some s.price) ∧
    (∀ (j : ℕ) (t t' : SimTick),
      ((expertFallback rng stocks c days).filter (fun t => t.ticker == s.ticker))[j]? = some t →
      ((expertFallback rng stocks c days).filter (fun t => t.ticker == s.ticker))[j + 1]? = some t' →
      t'.previousDayPrice = some t.price) := by
  obtain ⟨rng2, hr⟩ := expertFallbackGo_filter_eq rng c days s stocks 0 hs hnd
  rw [expertFallback, hr]
  refine ⟨simStockGo_length rng2 s c days 0 s.price, ?_, ?_⟩
  · intro t ht
    exact simStockGo_headPrev rng2 s c days 0 s.price t ht
  · intro j t t' ht ht'
    exact simStockGo_chain rng2 s c days 0 s.price j t t' ht ht'

/-- Witness for C1: a concrete one-stock, two-day expert fallback run in
which the chain invariant is checked at the first and second tick. -/
theorem C1_expert_price_chain_witness :
    (⟨"ABC", "Acme", 100, 5⟩ : Stock) ∈ [(⟨"ABC", "Acme", 100, 5⟩ : Stock)] ∧
    (([(⟨"ABC", "Acme", 100, 5⟩ : Stock)]).map Stock.ticker).Nodup ∧
    0 < 2 ∧
    ((expertFallback (fun _ => 0.5) [⟨"ABC", "Acme", 100, 5⟩] 0 2).filter
      (fun t => t.ticker == "ABC")).length = 2 := by
  have hs : (⟨"ABC", "Acme", 100, 5⟩ : Stock) ∈ [(⟨"ABC", "Acme", 100, 5⟩ : Stock)] :=
    List.mem_singleton.mpr rfl
  have hnd : (([(⟨"ABC", "Acme", 100, 5⟩ : Stock)]).map Stock.ticker).Nodup := by decide
  have h2 : 0 < 2 := by decide
  refine ⟨hs, hnd, h2, ?_⟩
  exact (C1_expert_price_chain (fun _ => 0.5) [⟨"ABC", "Acme", 100, 5⟩] 0 2
    ⟨"ABC", "Acme", 100, 5⟩ hs hnd h2).1

/-- Counterexample for C1 as stated: the casual variant's fallback (also
cited by the claim) does not chain prices.  With the stock priced 100 and a
random stream drawing 0 then 0.5, day 1's tick has price 90, while day 2's
tick has price 100 (recomputed from the input price, not from 90) and
carries no previousDayPrice at all, so previousDayPrice of day 2 is not
some (price of day 1). -/
theorem C1_casual_counterexample :
    ((casualFallback (fun n => if n == 0 then 0 else 0.5) [⟨"ABC", "Acme", 100, 5⟩] 0 2).map
      (fun t => (t.price, t.previousDayPrice)) = [(90, none), (100, none)]) ∧
    (none : Option ℚ) ≠ some (90 : ℚ) := by
  constructor
  · simp [casualFallback, casualFallbackGo, casualStockGo, casualStepTick]
    norm_num
  · simp

/-- C2 (amended to the expert variant): every tick produced by the expert
fallback simulator has price at least 0.1, for every input stock list,
current day, day count and random stream, since each price is
max(0.1, prevPrice * (1 + priceChange)). -/
theorem C2_expert_price_floor (rng : ℕ → ℚ) (stocks : List Stock) (c : ℤ) (days : ℕ)
    (t : SimTick) (ht : t ∈ expertFallback rng stocks c days) : (0.1 : ℚ) ≤ t.price := by
  rw [expertFallback] at ht
  have main : ∀ (l : List Stock) (j : ℕ), t ∈ expertFallbackGo rng c days l j →
      (0.1 : ℚ) ≤ t.price := by
    intro l
    induction l with
    | nil => intro j h; simp [expertFallbackGo] at h
    | cons x rest ih =>
      intro j h
      simp only [expertFallbackGo, List.mem_append] at h
      rcases h with h | h
      · exact simStockGo_floor _ x c days 0 x.price t h
      · exact ih (j + 1) h
  exact main stocks 0 ht

/-- Witness for C2: the concrete tick of a one-day expert fallback run is in
the output and its price is at least 0.1. -/
theorem C2_expert_price_floor_witness :
    (⟨"ABC", 1, 100, some 100, some 0, some 5, "Update for Acme",
        "Price changed on day 1"⟩ : SimTick) ∈
      expertFallback (fun _ => 0.5) [⟨"ABC", "Acme", 100, 5⟩] 0 1 ∧
    (0.1 : ℚ) ≤ (⟨"ABC", 1, 100, some 100, some 0, some 5, "Update for Acme",
        "Price changed on day 1"⟩ : SimTick).price := by
  have heq : expertFallback (fun _ => 0.5) [⟨"ABC", "Acme", 100, 5⟩] 0 1 =
      [⟨"ABC", 1, 100, some 100, some 0, some 5, "Update for Acme",
        "Price changed on day 1"⟩] := by
    simp [expertFallback, expertFallbackGo, simStockExpert, simStockGo, stepTick]
    norm_num
    rfl
  have hm : (⟨"ABC", 1, 100, some 100, some 0, some 5, "Update for Acme",
      "Price changed on day 1"⟩ : SimTick) ∈
      expertFallback (fun _ => 0.5) [⟨"ABC", "Acme", 100, 5⟩] 0 1 := by
    rw [heq]
    exact List.mem_singleton.mpr rfl
  exact ⟨hm, C2_expert_price_floor (fun _ => 0.5) [⟨"ABC", "Acme", 100, 5⟩] 0 1 _ hm⟩

/-- Counterexample for C2 as stated: the casual variant's fallback (also
cited by the claim) applies no 0.1 floor.  A stock priced 0.1 on an earnings
day (day 10) with a negative performance draw yields price
0.1 * (1 - 0.2) = 0.08 < 0.1. -/
theorem C2_casual_counterexample :
    ((casualFallback (fun _ => 0) [⟨"LOW", "Lowco", 0.1, 5⟩] 9 1).map SimTick.price =
      [(0.08 : ℚ)]) ∧
    (0.08 : ℚ) < 0.1 := by
  constructor
  · simp [casualFallback, casualFallbackGo, casualStockGo, casualStepTick]
    norm_num
  · norm_num

/- ### Schema validator drop policy (C3) -/

/-- C3 (amended): for every JSON array input, the stock validator drops
elements failing any field check, returns the surviving elements in their
original order (a sublist containing every valid element), and fails exactly
when nothing survives.  The tick validator behaves the same way provided no
element is the JSON literal null; reading `s.ticker` on a null element
throws inside the filter callback and fails the entire validation. -/
theorem C3_validator_drop_policy (xs : List JValue) (c : ℤ) (days : ℕ) :
    (((xs.filter stockValidE).isEmpty = false →
        validateStocksE (.arr xs) = .ok (xs.filter stockValidE) ∧
        (xs.filter stockValidE).Sublist xs ∧
        (∀ v ∈ xs.filter stockValidE, stockValidE v = true) ∧
        (∀ v ∈ xs, stockValidE v = true → v ∈ xs.filter stockValidE)) ∧
      ((xs.filter stockValidE).isEmpty = true →
        validateStocksE (.arr xs) = .error "No valid stocks returned")) ∧
    ((∀ v ∈ xs, isNullJ v = false) →
      ((xs.filter (tickValid c days)).isEmpty = false →
        validateTicks c days (.arr xs) = .ok (xs.filter (tickValid c days)) ∧
        (xs.filter (tickValid c days)).Sublist xs ∧
        (∀ v ∈ xs.filter (tickValid c days), tickValid c days v = true) ∧
        (∀ v ∈ xs, tickValid c days v = true → v ∈ xs.filter (tickValid c days))) ∧
      ((xs.filter (tickValid c days)).isEmpty = true →
        validateTicks c days (.arr xs) = .error "No valid simulation data")) := by
  have hnull : (∀ v ∈ xs, isNullJ v = false) → xs.any isNullJ = false := by
    intro h
    rw [List.any_eq_false]
    intro v hv
    simp [h v hv]
  constructor
  · constructor
    · intro he
      refine ⟨?_, List.filter_sublist xs, ?_, ?_⟩
      · simp [validateStocksE, he]
      · intro v hv
        exact List.of_mem_filter hv
      · intro v hv hval
        exact List.mem_filter.mpr ⟨hv, hval⟩
    · intro he
      simp [validateStocksE, he]
  · intro hn
    constructor
    · intro he
      refine ⟨?_, List.filter_sublist xs, ?_, ?_⟩
      · simp [validateTicks, hnull hn, he]
      · intro v hv
        exact List.of_mem_filter hv
      · intro v hv hval
        exact List.mem_filter.mpr ⟨hv, hval⟩
    · intro he
      simp [validateTicks, hnull hn, he]

/-- Witness for C3: a five-element stock array with two malformed entries
yields exactly its three valid entries, and likewise a five-element
null-free tick array with two malformed entries. -/
theorem C3_validator_drop_policy_witness :
    (([JValue.obj [("ticker", .str "ABC"), ("name", .str "Acme"), ("price", .num 100),
          ("previousDayPrice", .num 95), ("priceChange", .num 5), ("volatility", .num 5),
          ("sector", .str "Technology"), ("tidbit", .str "Makes things")],
        JValue.null,
        JValue.obj [("ticker", .str "BCD"), ("name", .str "Bco"), ("price", .num 50),
          ("previousDayPrice", .num 50), ("priceChange", .num 0), ("volatility", .num 2),
          ("sector", .str "Energy"), ("tidbit", .str "Oil")],
        JValue.obj [("ticker", .str "XYZ")],
        JValue.obj [("ticker", .str "CDE"), ("name", .str "Cco"), ("price", .num 10),
          ("previousDayPrice", .num 11), ("priceChange", .num (-9)), ("volatility", .num 3),
          ("sector", .str "Finance"), ("tidbit", .str "Bank")]].filter stockValidE).isEmpty
        = false) ∧
    (validateStocksE (.arr
        [JValue.obj [("ticker", .str "ABC"), ("name", .str "Acme"), ("price", .num 100),
          ("previousDayPrice", .num 95), ("priceChange", .num 5), ("volatility", .num 5),
          ("sector", .str "Technology"), ("tidbit", .str "Makes things")],
        JValue.null,
        JValue.obj [("ticker", .str "BCD"), ("name", .str "Bco"), ("price", .num 50),
          ("previousDayPrice", .num 50), ("priceChange", .num 0), ("volatility", .num 2),
          ("sector", .str "Energy"), ("tidbit", .str "Oil")],
        JValue.obj [("ticker", .str "XYZ")],
        JValue.obj [("ticker", .str "CDE"), ("name", .str "Cco"), ("price", .num 10),
          ("previousDayPrice", .num 11), ("priceChange", .num (-9)), ("volatility", .num 3),
          ("sector", .str "Finance"), ("tidbit", .str "Bank")]]) =
      .ok ([JValue.obj [("ticker", .str "ABC"), ("name", .str "Acme"), ("price", .num 100),
          ("previousDayPrice", .num 95), ("priceChange", .num 5), ("volatility", .num 5),
          ("sector", .str "Technology"), ("tidbit", .str "Makes things")],
        JValue.null,
        JValue.obj [("ticker", .str "BCD"), ("name", .str "Bco"), ("price", .num 50),
          ("previousDayPrice", .num 50), ("priceChange", .num 0), ("volatility", .num 2),
          ("sector", .str "Energy"), ("tidbit", .str "Oil")],
        JValue.obj [("ticker", .str "XYZ")],
        JValue.obj [("ticker", .str "CDE"), ("name", .str "Cco"), ("price", .num 10),
          ("previousDayPrice", .num 11), ("priceChange", .num (-9)), ("volatility", .num 3),
          ("sector", .str "Finance"), ("tidbit", .str "Bank")]].filter stockValidE)) ∧
    ((∀ v ∈ [JValue.obj [("ticker", .str "ABC"), ("day", .num 1), ("price", .num 5),
          ("headline", .str "h"), ("description", .str "d")],
        JValue.obj [("ticker", .str "ABC"), ("day", .num 9), ("price", .num 5),
          ("headline", .str "h"), ("description", .str "d")],
        JValue.obj [("ticker", .str "ABC"), ("day", .num 2), ("price", .num 6),
          ("headline", .str "h"), ("description", .str "d")],
        JValue.bool true,
        JValue.obj [("ticker", .str "ABC"), ("day", .num 3), ("price", .num 7),
          ("headline", .str "h"), ("description", .str "d")]], isNullJ v = false)) ∧
    (validateTicks 0 3 (.arr
        [JValue.obj [("ticker", .str "ABC"), ("day", .num 1), ("price", .num 5),
          ("headline", .str "h"), ("description", .str "d")],
        JValue.obj [("ticker", .str "ABC"), ("day", .num 9), ("price", .num 5),
          ("headline", .str "h"), ("description", .str "d")],
        JValue.obj [("ticker", .str "ABC"), ("day", .num 2), ("price", .num 6),
          ("headline", .str "h"), ("description", .str "d")],
        JValue.bool true,
        JValue.obj [("ticker", .str "ABC"), ("day", .num 3), ("price", .num 7),
          ("headline", .str "h"), ("description", .str "d")]]) =
      .ok ([JValue.obj [("ticker", .str "ABC"), ("day", .num 1), ("price", .num 5),
          ("headline", .str "h"), ("description", .str "d")],
        JValue.obj [("ticker", .str "ABC"), ("day", .num 9), ("price", .num 5),
          ("headline", .str "h"), ("description", .str "d")],
        JValue.obj [("ticker", .str "ABC"), ("day", .num 2), ("price", .num 6),
          ("headline", .str "h"), ("description", .str "d")],
        JValue.bool true,
        JValue.obj [("ticker", .str "ABC"), ("day", .num 3), ("price", .num 7),
          ("headline", .str "h"), ("description", .str "d")]].filter (tickValid 0 3))) := by
  refine ⟨by decide, ?_, by decide, ?_⟩
  · exact (((C3_validator_drop_policy _ 0 3).1.1) (by decide)).1
  · exact (((C3_validator_drop_policy _ 0 3).2 (by decide)).1 (by decide)).1

/-- Counterexample for C3 as stated: a tick array holding one fully valid
tick and one null element is rejected as a whole by the tick validator (the
filter callback throws on null), instead of returning the valid element. -/
theorem C3_null_counterexample :
    tickValid 0 1 (.obj [("ticker", .str "ABC"), ("day", .num 1), ("price", .num 5),
      ("headline", .str "h"), ("description", .str "d")]) = true ∧
    validateTicks 0 1 (.arr [.obj [("ticker", .str "ABC"), ("day", .num 1), ("price", .num 5),
      ("headline", .str "h"), ("description", .str "d")], .null]) =
      .error "TypeError: cannot read properties of null" := by
  exact ⟨by decide, rfl⟩

/- ### Economic event promotion and scheduling (C4, C5) -/

/-- C4: if the predicted-event singleton holds an event whose trigger day
lies in (currentDay, currentDay + days], the simulateDays econ step converts
it to an active event with startDay equal to the trigger day, clears the
singleton, and generates no fresh event; and in every case the returned
newEconEvents list has length at most 1. -/
theorem C4_promotion_precedence :
    (∀ (pe : PredictedEvent) (effects : List EconEffect) (c : ℤ) (days : ℕ) (rng : ℕ → ℚ),
      c + 1 ≤ pe.day → pe.day ≤ c + (days : ℤ) →
      econStep (some pe) effects c days rng =
        ([{ sector := pe.sector, headline := pe.headline, daysLeft := pe.daysLeft,
            startDay := pe.day, direction := pe.direction }], none)) ∧
    (∀ (p : Option PredictedEvent) (effects : List EconEffect) (c : ℤ) (days : ℕ)
      (rng : ℕ → ℚ), (econStep p effects c days rng).1.length ≤ 1) := by
  constructor
  · intro pe effects c days rng h1 h2
    rw [econStep]
    simp only [if_pos (And.intro h1 h2)]
    simp
  · intro p effects c days rng
    rw [econStep.eq_def]
    rcases p with _ | pe <;> simp only [] <;> repeat' split
    all_goals simp

/-- Witness for C4: a concrete predicted event with trigger day 3 inside
(0, 5] is promoted with startDay 3 and the singleton cleared. -/
theorem C4_promotion_precedence_witness :
    ((0 : ℤ) + 1 ≤ (3 : ℤ) ∧ (3 : ℤ) ≤ (0 : ℤ) + ((5 : ℕ) : ℤ)) ∧
    econStep (some ⟨"Energy", "Shift", 3, 4, .positive⟩) [] 0 5 (fun _ => 0) =
      ([{ sector := "Energy", headline := "Shift", daysLeft := 4, startDay := 3,
          direction := .positive }], none) := by
  refine ⟨⟨by decide, by decide⟩, ?_⟩
  exact C4_promotion_precedence.1 ⟨"Energy", "Shift", 3, 4, .positive⟩ [] 0 5 (fun _ => 0)
    (by decide) (by decide)

theorem sectorAt_mem (q : ℚ) (h0 : 0 ≤ q) (h1 : q < 1) : sectorAt q ∈ sectors := by
  simp only [sectorAt]
  have hi0 : (0 : ℤ) ≤ ⌊q * 6⌋ := Int.floor_nonneg.mpr (by positivity)
  have hi6 : ⌊q * 6⌋ < 6 := by
    have hq6 : q * 6 < 6 := by nlinarith
    exact Int.floor_lt.mpr (by exact_mod_cast hq6)
  rw [if_neg (by omega)]
  have hn : ⌊q * 6⌋.toNat < 6 := by omega
  have hall : ∀ m : ℕ, m < 6 → sectors.getD m "undefined" ∈ sectors := by decide
  exact hall _ hn

theorem genEconEvent_fields (c : ℤ) (r1 r2 r3 : ℚ)
    (h1 : 0 ≤ r1) (h1' : r1 < 1) (h2 : 0 ≤ r2) (h2' : r2 < 1) :
    (genEconEvent c r1 r2 r3).sector ∈ sectors ∧
    ((genEconEvent c r1 r2 r3).daysLeft = 3 ∨ (genEconEvent c r1 r2 r3).daysLeft = 4) ∧
    ((genEconEvent c r1 r2 r3).direction = .positive ∨
      (genEconEvent c r1 r2 r3).direction = .negative) ∧
    (genEconEvent c r1 r2 r3).startDay = c + 1 := by
  refine ⟨sectorAt_mem r1 h1 h1', ?_, ?_, rfl⟩
  · have hf0 : (0 : ℤ) ≤ ⌊r2 * 2⌋ := Int.floor_nonneg.mpr (by positivity)
    have hf2 : ⌊r2 * 2⌋ < 2 := by
      have hq2 : r2 * 2 < 2 := by nlinarith
      exact Int.floor_lt.mpr (by exact_mod_cast hq2)
    have : (genEconEvent c r1 r2 r3).daysLeft = 3 + ⌊r2 * 2⌋ := rfl
    omega
  · by_cases h : r3 > 0.5
    · left; simp [genEconEvent, h]
    · right; simp [genEconEvent, h]

theorem econStep_none (effects : List EconEffect) (c : ℤ) (days : ℕ) (rng : ℕ → ℚ) :
    econStep none effects c days rng =
      (if 6 ≤ c - lastEconEventDay effects c ∧
          rng 0 < (if 10 ≤ c - lastEconEventDay effects c then (1 : ℚ) else 0.5) then
        [genEconEvent c (rng 1) (rng 2) (rng 3)]
      else [], none) := by
  rw [econStep.eq_def]
  by_cases h6 : 6 ≤ c - lastEconEventDay effects c
  · simp [h6]
  · simp [h6]

/-- C5 (amended): the econ-event scheduler of simulateDays generates a new
event only when daysSinceLastEvent is at least 6, where daysSinceLastEvent =
currentDay - lastEconEventDay and lastEconEventDay takes each effect's
startDay with a missing-or-zero startDay replaced by currentDay (0 for an
empty effect list).  For every draw in [0,1) an event is generated once
daysSinceLastEvent >= 10; for 6 <= daysSinceLastEvent < 10 one is generated
exactly when the gate draw is below 0.5.  A generated event has a sector
from the fixed 6-sector set, daysLeft in {3,4}, a direction in
{positive, negative}, and startDay = currentDay + 1. -/
theorem C5_scheduler_cadence (effects : List EconEffect) (c : ℤ) (days : ℕ)
    (rng : ℕ → ℚ) (hr : ∀ n, 0 ≤ rng n ∧ rng n < 1) :
    (c - lastEconEventDay effects c < 6 → (econStep none effects c days rng).1 = []) ∧
    (10 ≤ c - lastEconEventDay effects c →
      ∃ ev, (econStep none effects c days rng).1 = [ev] ∧ ev.sector ∈ sectors ∧
        (ev.daysLeft = 3 ∨ ev.daysLeft = 4) ∧
        (ev.direction = .positive ∨ ev.direction = .negative) ∧ ev.startDay = c + 1) ∧
    (6 ≤ c - lastEconEventDay effects c → c - lastEconEventDay effects c < 10 →
      (((econStep none effects c days rng).1 ≠ []) ↔ rng 0 < 0.5) ∧
      (∀ ev, (econStep none effects c days rng).1 = [ev] → ev.sector ∈ sectors ∧
        (ev.daysLeft = 3 ∨ ev.daysLeft = 4) ∧
        (ev.direction = .positive ∨ ev.direction = .negative) ∧ ev.startDay = c + 1)) := by
  rw [econStep_none]
  refine ⟨?_, ?_, ?_⟩
  · intro hlt
    rw [if_neg]
    rintro ⟨h6, _⟩
    omega
  · intro h10
    have hcond : 6 ≤ c - lastEconEventDay effects c ∧
        rng 0 < (if 10 ≤ c - lastEconEventDay effects c then (1 : ℚ) else 0.5) := by
      refine ⟨by omega, ?_⟩
      rw [if_pos h10]
      exact (hr 0).2
    rw [if_pos hcond]
    exact ⟨genEconEvent c (rng 1) (rng 2) (rng 3), rfl,
      genEconEvent_fields c (rng 1) (rng 2) (rng 3) (hr 1).1 (hr 1).2 (hr 2).1 (hr 2).2⟩
  · intro h6 h10
    rw [if_neg (by omega : ¬ (10 : ℤ) ≤ c - lastEconEventDay effects c)]
    by_cases hlt : rng 0 < 0.5
    · rw [if_pos ⟨h6, hlt⟩]
      refine ⟨⟨fun _ => hlt, fun _ => by simp⟩, ?_⟩
      intro ev hev
      have hev' : ev = genEconEvent c (rng 1) (rng 2) (rng 3) := by
        simpa using hev.symm
      rw [hev']
      exact genEconEvent_fields c (rng 1) (rng 2) (rng 3)
        (hr 1).1 (hr 1).2 (hr 2).1 (hr 2).2
    · rw [if_neg (fun hc => hlt hc.2)]
      refine ⟨⟨fun hne => absurd rfl hne, fun h => absurd h hlt⟩, ?_⟩
      intro ev hev
      exact absurd hev (by simp)

/-- Witness for C5: with no active effects and currentDay 12 the cadence is
past 10, so an event is generated for the all-zero draw stream and its
fields are in range. -/
theorem C5_scheduler_cadence_witness :
    (∀ n : ℕ, 0 ≤ ((fun _ => (0 : ℚ)) n) ∧ ((fun _ => (0 : ℚ)) n) < 1) ∧
    (10 : ℤ) ≤ 12 - lastEconEventDay [] 12 ∧
    (∃ ev, (econStep none [] 12 1 (fun _ => 0)).1 = [ev] ∧ ev.sector ∈ sectors ∧
      (ev.daysLeft = 3 ∨ ev.daysLeft = 4) ∧
      (ev.direction = .positive ∨ ev.direction = .negative) ∧ ev.startDay = 12 + 1) := by
  have hr : ∀ n : ℕ, 0 ≤ ((fun _ => (0 : ℚ)) n) ∧ ((fun _ => (0 : ℚ)) n) < 1 :=
    fun _ => ⟨le_refl 0, by norm_num⟩
  exact ⟨hr, by decide, (C5_scheduler_cadence [] 12 1 (fun _ => 0) hr).2.1 (by decide)⟩

/-- Counterexample for C5 as stated: an active effect whose startDay is 0 is
replaced by currentDay in the code's Math.max (JS `e.startDay || currentDay`),
so with currentDay 15 the claim's formula gives daysSinceLastEvent = 15 - 0
= 15 >= 10 (an event should be generated with probability 1), yet the code
computes daysSinceLastEvent = 0 and generates nothing for the valid draw
0.5. -/
theorem C5_zero_startDay_counterexample :
    (10 : ℤ) ≤ 15 - 0 ∧
    (econStep none [⟨"Technology", "h", 3, some 0, .positive⟩] 15 1 (fun _ => 0.5)).1 = [] := by
  exact ⟨by decide, rfl⟩

/- ### /predictEconEvent (C6, C7) -/

/-- C6 (the code violates the claim): with no active effects and currentDay
12, daysSinceLastEvent is 12 >= 6, so daysUntilNext = min(6 + floor(0.5*5),
10 - 12) = -2 and predictEconEvent returns and stores a prediction whose
trigger day 10 is not in the future (10 <= 12). -/
theorem C6_nonfuture_prediction :
    ((predictEconEvent none [] 12 (fun _ => 0.5)).1.day = 10 ∧
      ¬ (12 : ℤ) < (predictEconEvent none [] 12 (fun _ => 0.5)).1.day) ∧
    (predictEconEvent none [] 12 (fun _ => 0.5)).2 =
      some (predictEconEvent none [] 12 (fun _ => 0.5)).1 := by
  have hday : (predictEconEvent none [] 12 (fun _ => 0.5)).1.day = 10 := by
    norm_num [predictEconEvent, lastEconEventDay, sectorAt]
  refine ⟨⟨hday, ?_⟩, rfl⟩
  rw [hday]
  norm_num

/-- C7: while a stored prediction is unexpired (currentDay < its trigger
day) predictEconEvent returns it unchanged and leaves the singleton
unchanged; once currentDay reaches or passes the trigger day the singleton
is cleared and the call behaves exactly like a call with an empty singleton,
generating and storing a fresh prediction. -/
theorem C7_prediction_idempotent :
    (∀ (pe : PredictedEvent) (effects : List EconEffect) (c : ℤ) (rng : ℕ → ℚ),
      c < pe.day → predictEconEvent (some pe) effects c rng = (pe, some pe)) ∧
    (∀ (pe : PredictedEvent) (effects : List EconEffect) (c : ℤ) (rng : ℕ → ℚ),
      pe.day ≤ c →
        predictEconEvent (some pe) effects c rng = predictEconEvent none effects c rng ∧
        (predictEconEvent none effects c rng).2 =
          some (predictEconEvent none effects c rng).1) := by
  constructor
  · intro pe effects c rng hc
    rw [predictEconEvent.eq_def]
    simp only [if_neg (not_le.mpr hc)]
  · intro pe effects c rng hc
    constructor
    · rw [predictEconEvent.eq_def, predictEconEvent.eq_def]
      simp only [ge_iff_le, if_pos hc]
    · rfl

/-- Witness for C7: a pending prediction with trigger day 5 is returned
unchanged at currentDay 3, and at currentDay 7 the call regenerates. -/
theorem C7_prediction_idempotent_witness :
    ((3 : ℤ) < (5 : ℤ) ∧
      predictEconEvent (some ⟨"Energy", "Shift", 5, 4, .positive⟩) [] 3 (fun _ => 0) =
        (⟨"Energy", "Shift", 5, 4, .positive⟩, some ⟨"Energy", "Shift", 5, 4, .positive⟩)) ∧
    ((5 : ℤ) ≤ (7 : ℤ) ∧
      predictEconEvent (some ⟨"Energy", "Shift", 5, 4, .positive⟩) [] 7 (fun _ => 0) =
        predictEconEvent none [] 7 (fun _ => 0)) := by
  constructor
  · exact ⟨by decide, C7_prediction_idempotent.1 ⟨"Energy", "Shift", 5, 4, .positive⟩ [] 3
      (fun _ => 0) (by decide)⟩
  · exact ⟨by decide, (C7_prediction_idempotent.2 ⟨"Energy", "Shift", 5, 4, .positive⟩ [] 7
      (fun _ => 0) (by decide)).1⟩

/- ### /predictNews (C8) -/

theorem jGet_newsObj_ticker (t d dir : JValue) :
    jGet (.obj [("ticker", t), ("day", d), ("direction", dir)]) "ticker" = some t := rfl

theorem jGet_newsObj_day (t d dir : JValue) :
    jGet (.obj [("ticker", t), ("day", d), ("direction", dir)]) "day" = some d := rfl

theorem newsFallback_ok (stocks : List Stock) (c : ℤ) (rng : ℕ → ℚ)
    (hne : stocks ≠ []) (hr : ∀ n, 0 ≤ rng n ∧ rng n < 1) :
    ∃ r, newsFallback stocks c rng = .ok r ∧
      (∃ t, jGet r "ticker" = some (.str t) ∧ t ∈ stocks.map Stock.ticker) ∧
      (∃ d : ℚ, jGet r "day" = some (.num d) ∧ (c : ℚ) < d ∧ d ≤ (c : ℚ) + 7) := by
  have hlen : 0 < stocks.length := List.length_pos.mpr hne
  have hi0 : (0 : ℤ) ≤ ⌊rng 0 * (stocks.length : ℚ)⌋ :=
    Int.floor_nonneg.mpr (mul_nonneg (hr 0).1 (by positivity))
  have hilt : ⌊rng 0 * (stocks.length : ℚ)⌋ < (stocks.length : ℤ) := by
    refine Int.floor_lt.mpr ?_
    push_cast
    have : rng 0 * (stocks.length : ℚ) < 1 * (stocks.length : ℚ) :=
      mul_lt_mul_of_pos_right (hr 0).2 (by exact_mod_cast hlen)
    linarith
  have hidx : ⌊rng 0 * (stocks.length : ℚ)⌋.toNat < stocks.length := by omega
  rw [newsFallback]
  rw [dif_pos ⟨hi0, hidx⟩]
  refine ⟨_, rfl, ?_, ?_⟩
  · refine ⟨(stocks.get ⟨⌊rng 0 * (stocks.length : ℚ)⌋.toNat, hidx⟩).ticker,
      jGet_newsObj_ticker _ _ _, ?_⟩
    exact List.mem_map_of_mem Stock.ticker (stocks.get_mem _ _)
  · have hf0 : (0 : ℤ) ≤ ⌊rng 1 * 7⌋ :=
      Int.floor_nonneg.mpr (mul_nonneg (hr 1).1 (by norm_num))
    have hf7 : ⌊rng 1 * 7⌋ < 7 := by
      refine Int.floor_lt.mpr ?_
      push_cast
      nlinarith [(hr 1).2]
    refine ⟨((c + ⌊rng 1 * 7⌋ + 1 : ℤ) : ℚ), jGet_newsObj_day _ _ _, ?_, ?_⟩
    · have hlt : (c : ℤ) < c + ⌊rng 1 * 7⌋ + 1 := by omega
      exact_mod_cast hlt
    · have h7 : (c + ⌊rng 1 * 7⌋ + 1 : ℤ) ≤ c + 7 := by omega
      calc ((c + ⌊rng 1 * 7⌋ + 1 : ℤ) : ℚ) ≤ ((c + 7 : ℤ) : ℚ) := by exact_mod_cast h7
        _ = (c : ℚ) + 7 := by push_cast; ring

/-- C8 (amended to the casual variant): the casual /predictNews always
produces a prediction whose ticker matches some stock of the supplied
non-empty catalog and whose day lies in (currentDay, currentDay+7]: an LLM
candidate failing the ticker-membership, day-range or format checks is
replaced by the random fallback, which picks a stock of the list, a day in
(currentDay, currentDay+7] and a direction.  The expert variant checks only
format (truthy ticker, integer day, direction rise/fall). -/
theorem C8_casual_guarantee (stocks : List Stock) (c : ℤ) (cand : Option JValue)
    (rng : ℕ → ℚ) (hne : stocks ≠ []) (hr : ∀ n, 0 ≤ rng n ∧ rng n < 1) :
    ∃ r, predictNewsC stocks c cand rng = .ok r ∧
      (∃ t, jGet r "ticker" = some (.str t) ∧ t ∈ stocks.map Stock.ticker) ∧
      (∃ d : ℚ, jGet r "day" = some (.num d) ∧ (c : ℚ) < d ∧ d ≤ (c : ℚ) + 7) := by
  rcases cand with _ | v
  · rw [predictNewsC]
    exact newsFallback_ok stocks c rng hne hr
  · rw [predictNewsC]
    by_cases hv : validNewsCandidateC stocks c v = true
    · rw [if_pos hv]
      rw [validNewsCandidateC] at hv
      simp only [Bool.and_eq_true] at hv
      obtain ⟨⟨_, hmem⟩, hrange⟩ := hv
      refine ⟨v, rfl, ?_, ?_⟩
      · have hmem' := hmem
        rcases ht : jGet v "ticker" with _ | w <;> rw [ht] at hmem'
        · simp at hmem'
        · rcases w with _ | b | q | t | el | fs <;> simp at hmem'
          obtain ⟨s, hs, hst⟩ := hmem'
          exact ⟨t, rfl, hst ▸ List.mem_map_of_mem Stock.ticker hs⟩
      · have hrange' := hrange
        rcases hd : numField v "day" with _ | d <;> rw [hd] at hrange'
        · simp at hrange'
        · simp only [Bool.and_eq_true, decide_eq_true_eq] at hrange'
          obtain ⟨h1, h7⟩ := hrange'
          have hd' : jGet v "day" = some (.num d) := by
            revert hd
            simp only [numField]
            rcases jGet v "day" with _ | w
            · intro h; exact absurd h (by simp)
            · rcases w with _ | b | q | t | el | fs <;> intro h <;> simp_all
          refine ⟨d, hd', ?_, ?_⟩
          · have hcast : ((c + 1 : ℤ) : ℚ) ≤ d := h1
            push_cast at hcast
            linarith
          · have hcast : d ≤ ((c + 7 : ℤ) : ℚ) := h7
            push_cast at hcast
            linarith
    · rw [if_neg hv]
      exact newsFallback_ok stocks c rng hne hr

/-- Witness for C8: a casual predictNews call with no usable LLM candidate
and a one-stock catalog returns a prediction with a catalog ticker and an
in-range day. -/
theorem C8_casual_guarantee_witness :
    ([(⟨"ABC", "Acme", 100, 5⟩ : Stock)] ≠ []) ∧
    (∀ n : ℕ, 0 ≤ ((fun _ => (0 : ℚ)) n) ∧ ((fun _ => (0 : ℚ)) n) < 1) ∧
    (∃ r, predictNewsC [⟨"ABC", "Acme", 100, 5⟩] 0 none (fun _ => 0) = .ok r ∧
      (∃ t, jGet r "ticker" = some (.str t) ∧
        t ∈ ([(⟨"ABC", "Acme", 100, 5⟩ : Stock)]).map Stock.ticker) ∧
      (∃ d : ℚ, jGet r "day" = some (.num d) ∧ ((0 : ℤ) : ℚ) < d ∧ d ≤ ((0 : ℤ) : ℚ) + 7)) := by
  have hr : ∀ n : ℕ, 0 ≤ ((fun _ => (0 : ℚ)) n) ∧ ((fun _ => (0 : ℚ)) n) < 1 :=
    fun _ => ⟨le_refl 0, by norm_num⟩
  exact ⟨List.cons_ne_nil _ _, hr,
    C8_casual_guarantee [⟨"ABC", "Acme", 100, 5⟩] 0 none (fun _ => 0)
      (List.cons_ne_nil _ _) hr⟩

/-- Counterexample for C8 as stated: the expert /predictNews (also cited by
the claim) checks neither ticker membership nor day range, so an LLM
candidate with the unknown ticker ZZZZ and day 100 is returned unchanged
even though the catalog only holds ABC and the range ends at day 7. -/
theorem C8_expert_counterexample :
    predictNewsE [⟨"ABC", "Acme", 100, 5⟩] 0
      (some (.obj [("ticker", .str "ZZZZ"), ("day", .num 100), ("direction", .str "rise")]))
      (fun _ => 0) =
      .ok (.obj [("ticker", .str "ZZZZ"), ("day", .num 100), ("direction", .str "rise")]) ∧
    "ZZZZ" ∉ ([(⟨"ABC", "Acme", 100, 5⟩ : Stock)]).map Stock.ticker ∧
    ¬ ((100 : ℚ) ≤ ((0 : ℤ) : ℚ) + 7) := by
  refine ⟨rfl, by decide, by norm_num⟩

/- ### /analyzePerformance (C9) -/

/-- C9 (the code violates the second half of the claim): a log passed as a
parseable JSON string yields exactly the same validation outcome as the
equivalent pre-parsed value, but a malformed (unparseable) log string makes
JSON.parse throw before the try/catch and before the Invalid-input check, so
the handler raises instead of answering 400 Invalid input. -/
theorem C9_log_string_roundtrip :
    (∀ (v : JValue) (portfolio budget : JValue),
      analyzePerformanceHandler (.jstring (some v)) portfolio budget =
        analyzePerformanceHandler (.jsval v) portfolio budget) ∧
    analyzePerformanceHandler (.jstring none) (.obj []) (.num 0) = .error () ∧
    analyzePerformanceHandler (.jstring none) (.obj []) (.num 0) ≠
      .ok APOutcome.invalidInput := by
  refine ⟨fun v p b => rfl, rfl, fun h => Except.noConfusion h⟩

/- ### simulateDays response cache and the predicted-event singleton (C10) -/

/-- C10: when a simulateDays request hits the response cache (same key,
entry younger than the 5-minute TTL), the whole server state - in
particular the PredictedEvent singleton - is left unchanged: the
promotion-and-clear step runs only inside the cache-miss compute function,
so a predicted event whose trigger day lies inside the requested range is
neither promoted nor cleared. -/
theorem C10_cache_hit_preserves_predicted (st : ServerState) (now : ℤ)
    (stocks : List Stock) (days : ℕ) (preds : List Prediction)
    (c : ℤ) (effects : List EconEffect) (llm : Option JValue) (rng : ℕ → ℚ)
    (e : CacheEntry)
    (hhit : cacheLookup (simCacheKey c days preds effects) st.cache = some e)
    (httl : now - e.timestamp < CACHE_TTL) :
    (simulateDaysHandler st now stocks days preds c effects llm rng).2 = st ∧
    (simulateDaysHandler st now stocks days preds c effects llm rng).2.predicted =
      st.predicted := by
  have hst : (simulateDaysHandler st now stocks days preds c effects llm rng).2 = st := by
    rw [simulateDaysHandler, getOrCache, hhit]
    simp [httl]
  exact ⟨hst, by rw [hst]⟩

/-- Witness for C10: a concrete state whose cache holds a fresh entry for
the request key and whose singleton holds a prediction with trigger day 1
inside the requested range (0, 1]; the handler leaves both untouched. -/
theorem C10_cache_hit_preserves_predicted_witness :
    cacheLookup (simCacheKey 0 1 [] [])
      [(simCacheKey 0 1 [] [],
        ⟨⟨.fromFallback [], []⟩, 0⟩)] = some ⟨⟨.fromFallback [], []⟩, 0⟩ ∧
    (1 : ℤ) - 0 < CACHE_TTL ∧
    (simulateDaysHandler
        ⟨[(simCacheKey 0 1 [] [], ⟨⟨.fromFallback [], []⟩, 0⟩)],
          some ⟨"Energy", "Shift", 1, 3, .positive⟩⟩
        1 [] 1 [] 0 [] none (fun _ => 0)).2.predicted =
      some ⟨"Energy", "Shift", 1, 3, .positive⟩ := by
  have hhit : cacheLookup (simCacheKey 0 1 [] [])
      [(simCacheKey 0 1 [] [], (⟨⟨.fromFallback [], []⟩, 0⟩ : CacheEntry))] =
      some ⟨⟨.fromFallback [], []⟩, 0⟩ := by
    rfl
  have httl : (1 : ℤ) - 0 < CACHE_TTL := by decide
  refine ⟨hhit, httl, ?_⟩
  exact (C10_cache_hit_preserves_predicted
    ⟨[(simCacheKey 0 1 [] [], ⟨⟨.fromFallback [], []⟩, 0⟩)],
      some ⟨"Energy", "Shift", 1, 3, .positive⟩⟩
    1 [] 1 [] 0 [] none (fun _ => 0) ⟨⟨.fromFallback [], []⟩, 0⟩ hhit httl).2
